import Mathlib

/-
Verification of the portfolio_risk repository: a shallow embedding of
portfolio_risk_analyzer.py and index_fund_fee_analyzer.py, followed by
theorems about the embedded functions.

Conventions of the embedding:
- pandas DataFrame columns are association lists of named series; a series
  entry is `Option Rat` with `none` standing for NaN (a missing value).
- pandas reductions (mean, std, quantile, cumprod/expanding-max/min) use
  skipna semantics: they operate on the present values of a series.
- numpy float results that are NaN are modelled as `none`.
- machine floats are modelled by exact rationals; square roots live in the
  reals, so the few definitions touching them are noncomputable.
-/

/-- One DataFrame column: entries are present rationals or missing (NaN). -/
abbrev ColSeries := List (Option ℚ)

/-- A returns DataFrame: named, index-aligned columns of possibly-missing
rationals. -/
abbrev ReturnsFrame := List (String × ColSeries)

/-- A price-history DataFrame as loaded from CSV: named, fully present
numeric columns (the PriceHistory invariant aligns all columns on one
shared date index). -/
abbrev PriceFrame := List (String × List ℚ)

/-- The present (non-NaN) values of a series, in order. -/
def presentVals (s : ColSeries) : List ℚ := s.filterMap id

/-- pandas `Series.isna().all()`: every entry of the column is missing. -/
def isAllNa (s : ColSeries) : Bool := s.all Option.isNone

/-- pandas `Series.mean()` over an all-present list (skipna reductions are
applied to `presentVals` first). -/
def meanQ (xs : List ℚ) : ℚ := xs.sum / xs.length

/-- Sample variance with divisor n-1, the `ddof=1` default of pandas
`Series.std` (as a rational; the std is its square root). -/
def sampleVar (xs : List ℚ) : ℚ :=
  (xs.map (fun x => (x - meanQ xs) ^ 2)).sum / ((xs.length : ℚ) - 1)

/-- pandas `Series.std()` (ddof=1, skipna): NaN (`none`) when fewer than two
present observations, else the square root of the sample variance of the
present values. -/
noncomputable def pdStd (s : ColSeries) : Option ℝ :=
  if 2 ≤ (presentVals s).length then
    some (Real.sqrt ((sampleVar (presentVals s) : ℚ) : ℝ))
  else none

/-- `numpy.cov(x, y)[0][1]`: sample covariance with divisor N-1 (the numpy
default for `cov` is ddof=1). -/
def npCov (xs ys : List ℚ) : ℚ :=
  ((xs.zip ys).map (fun p => (p.1 - meanQ xs) * (p.2 - meanQ ys))).sum /
    ((xs.length : ℚ) - 1)

/-- `numpy.var(y)`: population variance with divisor N (the numpy default
for `var` is ddof=0). -/
def npVar (ys : List ℚ) : ℚ :=
  (ys.map (fun y => (y - meanQ ys) ^ 2)).sum / (ys.length : ℚ)

/-- pandas `Series.quantile(q)` with the default linear interpolation over
the sorted present values: position h = q*(n-1), linearly interpolated
between the neighbouring order statistics. -/
def quantileLinear (xs : List ℚ) (q : ℚ) : ℚ :=
  let s := List.insertionSort (· ≤ ·) xs
  let h : ℚ := q * ((xs.length : ℚ) - 1)
  let i : ℕ := (⌊h⌋).toNat
  let lo := s.getD i 0
  let hi := s.getD (i + 1) lo
  lo + (h - i) * (hi - lo)

/-- `Series.pct_change().dropna()` on a fully present column:
`r[t] = price[t]/price[t-1] - 1`, with the first observation dropped. -/
def pct_change (prices : List ℚ) : List ℚ :=
  (prices.zip prices.tail).map (fun p => p.2 / p.1 - 1)

/-- `(1 + returns).cumprod()`: running product of the growth factors, with
no leading 1 (the first entry is `1 + r[0]` itself). -/
def cumulativeReturns (rs : List ℚ) : List ℚ :=
  ((rs.map (fun r => 1 + r)).scanl (· * ·) 1).tail

/-- `Series.expanding().max()`: the running maximum of a series. -/
def runningMax (xs : List ℚ) : List ℚ :=
  match xs with
  | [] => []
  | h :: t => t.scanl max h

/-- The drawdown series `(cumulative - running_max) / running_max`. -/
def drawdownSeries (rs : List ℚ) : List ℚ :=
  ((cumulativeReturns rs).zip (runningMax (cumulativeReturns rs))).map
    (fun p => (p.1 - p.2) / p.2)

/-- Per-asset maximum drawdown: `drawdown.min()` (NaN/`none` on an empty
series). -/
def maxDrawdownVal (rs : List ℚ) : Option ℚ := (drawdownSeries rs).min?

/-- The analyzer object: the two optional loaded tables. -/
structure PortfolioRiskAnalyzer where
  holdings_df : Option PriceFrame
  history_df : Option PriceFrame

/-- A freshly constructed analyzer: nothing loaded. -/
def initAnalyzer : PortfolioRiskAnalyzer := ⟨none, none⟩

/-- `load_holdings`: the outcome of the `pd.read_csv` call inside the `try`
block is passed as an `Except` value (ok = the parsed table, error = the
exception text for a missing file or malformed CSV). On error the method
prints the error and returns; the analyzer state is not touched. Returns
the new state together with the printed messages. -/
def load_holdings (self : PortfolioRiskAnalyzer) (file_path : String)
    (read_csv_result : Except String PriceFrame) :
    PortfolioRiskAnalyzer × List String :=
  match read_csv_result with
  | .ok df =>
      ({ self with holdings_df := some df },
       ["Successfully loaded holdings from " ++ file_path])
  | .error e => (self, ["Error loading holdings file: " ++ e])

/-- `load_history`: as `load_holdings` (the `Except` argument models the
whole `try` body, `pd.read_csv` plus the Date conversion). On error the
state is not touched. -/
def load_history (self : PortfolioRiskAnalyzer) (file_path : String)
    (read_csv_result : Except String PriceFrame) :
    PortfolioRiskAnalyzer × List String :=
  match read_csv_result with
  | .ok df =>
      ({ self with history_df := some df },
       ["Successfully loaded history from " ++ file_path])
  | .error e => (self, ["Error loading history file: " ++ e])

/-- `calculate_asset_returns`: None when no history is loaded; otherwise
per-column `pct_change().dropna()` over every column except the Date
column (fully present price columns yield fully present return columns). -/
def calculate_asset_returns (history_df : Option PriceFrame) :
    Option ReturnsFrame :=
  history_df.map (fun df =>
    (df.filter (fun c => c.1 ≠ "Date")).map
      (fun c => (c.1, (pct_change c.2).map some)))

/-- `calculate_volatility`: `returns_df.std() * np.sqrt(252)`. Every column
is kept (there is no skip); an all-NaN column yields a NaN value. -/
noncomputable def calculate_volatility (returns_df : Option ReturnsFrame) :
    Option (List (String × Option ℝ)) :=
  returns_df.map (fun df =>
    df.map (fun c => (c.1, (pdStd c.2).map (· * Real.sqrt 252))))

/-- The per-asset beta value `np.cov(asset, market)[0][1] / np.var(market)`.
numpy propagates NaN, so the value is NaN (`none`) unless both aligned
series are fully present. -/
def betaVal (s market : ColSeries) : Option ℚ :=
  if s.all Option.isSome ∧ market.all Option.isSome then
    some (npCov (presentVals s) (presentVals market) /
      npVar (presentVals market))
  else none

/-- The default benchmark symbol of `calculate_beta`. -/
def default_market_symbol : String := "SPY"

/-- `calculate_beta`: None when returns are missing or the market symbol is
not a column; otherwise one beta per column that is not the market symbol
and not entirely NaN. -/
def calculate_beta (returns_df : Option ReturnsFrame)
    (market_symbol : String) : Option (List (String × Option ℚ)) :=
  match returns_df with
  | none => none
  | some df =>
    match df.lookup market_symbol with
    | none => none
    | some market =>
        some (df.filterMap (fun c =>
          if c.1 ≠ market_symbol ∧ ¬ isAllNa c.2 then
            some (c.1, betaVal c.2 market)
          else none))

/-- The default confidence level of `calculate_value_at_risk`. -/
def default_confidence_level : ℚ := 0.05

/-- `calculate_value_at_risk`: per column that is not entirely NaN, the
empirical quantile of the present returns at the confidence level. -/
def calculate_value_at_risk (returns_df : Option ReturnsFrame)
    (confidence_level : ℚ) : Option (List (String × ℚ)) :=
  returns_df.map (fun df =>
    df.filterMap (fun c =>
      if ¬ isAllNa c.2 then
        some (c.1, quantileLinear (presentVals c.2) confidence_level)
      else none))

/-- The default risk-free rate of `calculate_sharpe_ratio`. -/
def default_risk_free_rate : ℚ := 0.02

open Classical in
/-- The per-asset Sharpe value: mean of the excess returns divided by the
std of the returns. When the std is NaN (fewer than two observations) the
float comparison `NaN != 0` is true and the quotient is NaN; when the std
is zero the code stores `np.nan`; so both cases yield `none`. -/
noncomputable def sharpeVal (risk_free_rate : ℚ) (s : ColSeries) :
    Option ℝ :=
  match pdStd s with
  | none => none
  | some vol =>
      if vol = 0 then none
      else some
        (((meanQ ((presentVals s).map (fun r => r - risk_free_rate / 252)) :
          ℚ) : ℝ) / vol)

/-- `calculate_sharpe_ratio`: one Sharpe value per column that is not
entirely NaN. -/
noncomputable def calculate_sharpe_ratio (returns_df : Option ReturnsFrame)
    (risk_free_rate : ℚ) : Option (List (String × Option ℝ)) :=
  returns_df.map (fun df =>
    df.filterMap (fun c =>
      if ¬ isAllNa c.2 then some (c.1, sharpeVal risk_free_rate c.2)
      else none))

/-- `calculate_max_drawdown`: one value per column that is not entirely
NaN; pandas cumprod/expanding-max/min all skip NaN, so the computation
reduces to the present values of the column. -/
def calculate_max_drawdown (returns_df : Option ReturnsFrame) :
    Option (List (String × Option ℚ)) :=
  returns_df.map (fun df =>
    df.filterMap (fun c =>
      if ¬ isAllNa c.2 then some (c.1, maxDrawdownVal (presentVals c.2))
      else none))

open Classical in
/-- `_classify_risk_level`: the volatility classification bands. -/
noncomputable def _classify_risk_level (volatility : ℝ) : String :=
  if volatility < 0.15 then "Low"
  else if volatility < 0.25 then "Medium"
  else if volatility < 0.40 then "High"
  else "Very High"

/-- The sample standard deviation of a list of rationals, as a real. -/
noncomputable def sampleStd (xs : List ℚ) : ℝ :=
  Real.sqrt ((sampleVar xs : ℚ) : ℝ)

/- ------------------------------------------------------------------
   index_fund_fee_analyzer.py
   ------------------------------------------------------------------ -/

/-- An expense-ratio slot of the fund-info dictionary: either a number or a
string (the code stores the sentinel string when no field is found). -/
inductive FeeValue where
  | num (q : ℚ)
  | strv (s : String)
deriving DecidableEq

/-- The expense-ratio field names probed by `get_fund_info`, in order. -/
def expense_ratio_fields : List String :=
  ["netExpenseRatio", "expenseRatio", "annualReportExpenseRatio",
   "grossExpRatio", "netExpRatio"]

/-- The expense-ratio normalization of `get_fund_info`: values x with
`0.01 <= x <= 1.0`, and values x with `1 < x <= 100`, are divided by 100;
everything else is stored unchanged. -/
def normalizeExpenseRatio (x : ℚ) : ℚ :=
  if 1 / 100 ≤ x ∧ x ≤ 1 then x / 100
  else if 1 < x ∧ x ≤ 100 then x / 100
  else x

/-- The expense-ratio value stored by `get_fund_info` given the provider
info mapping (absent fields and None values are modelled as missing keys):
the first matching field wins and is normalized; with no match the string
sentinel is stored. -/
def get_fund_info_expense_ratio (info : List (String × ℚ)) : FeeValue :=
  match expense_ratio_fields.findSome? (fun f => info.lookup f) with
  | some x => .num (normalizeExpenseRatio x)
  | none => .strv "N/A"

/-- `_categorize_expense_ratio`. `pyFloat` models the Python `float`
parser: `none` means `float(s)` raises ValueError. -/
def _categorize_expense_ratio (pyFloat : String → Option ℚ)
    (expense_ratio : FeeValue) : String :=
  let bucket : ℚ → String := fun ratio =>
    if ratio ≤ 1 / 1000 then "Low"
    else if ratio ≤ 5 / 1000 then "Medium"
    else "High"
  match expense_ratio with
  | .num q => bucket q
  | .strv s =>
      if s = "N/A" then "N/A"
      else
        match pyFloat s with
        | some r => bucket (if 1 < r then r / 100 else r)
        | none => "N/A"

/-- `_calculate_annual_cost`: 0 for the sentinel and for unparsable
strings, else amount times the (possibly percent-converted) ratio. The
function is total: no exception escapes. -/
def _calculate_annual_cost (pyFloat : String → Option ℚ)
    (investment_amount : ℚ) (expense_ratio : FeeValue) : ℚ :=
  match expense_ratio with
  | .num q => investment_amount * q
  | .strv s =>
      if s = "N/A" then 0
      else
        match pyFloat s with
        | some r => investment_amount * (if 1 < r then r / 100 else r)
        | none => 0

/-- The fund-info record assembled by `get_fund_info` (the fields the
analysis reads). -/
structure FundInfo where
  ticker : String
  name : String
  expense_ratio : FeeValue
  category : String
  fundFamily : String

/-- The analysis record assembled by `analyze_single_fund`. -/
structure FundAnalysis where
  ticker : String
  name : String
  expense_ratio : FeeValue
  fee_category : String
  annual_cost_per_10k : ℚ
  category : String
  fund_family : String

/-- `analyze_single_fund`: an error record when `get_fund_info` returned
None (passed in as the `fund_info` argument), else the assembled analysis
with the annual cost computed on 10000. -/
def analyze_single_fund (pyFloat : String → Option ℚ) (ticker : String)
    (fund_info : Option FundInfo) : Except String FundAnalysis :=
  match fund_info with
  | none => .error ("Could not retrieve data for " ++ ticker)
  | some fi =>
      .ok
        { ticker := fi.ticker
          name := fi.name
          expense_ratio := fi.expense_ratio
          fee_category := _categorize_expense_ratio pyFloat fi.expense_ratio
          annual_cost_per_10k :=
            _calculate_annual_cost pyFloat 10000 fi.expense_ratio
          category := fi.category
          fund_family := fi.fundFamily }

/-- A uniform synthetic return series: 21 equally spaced daily returns
from -10% to +10%. -/
def uniform_returns : List ℚ :=
  [-10/100, -9/100, -8/100, -7/100, -6/100, -5/100, -4/100, -3/100,
   -2/100, -1/100, 0, 1/100, 2/100, 3/100, 4/100, 5/100, 6/100, 7/100,
   8/100, 9/100, 10/100]

/- ------------------------------------------------------------------
   Helper lemmas
   ------------------------------------------------------------------ -/

theorem presentVals_map_some (xs : List ℚ) : presentVals (xs.map some) = xs := by
  simp [presentVals, List.filterMap_map]

theorem presentVals_replicate_some (n : ℕ) (c : ℚ) :
    presentVals (List.replicate n (some c)) = List.replicate n c := by
  induction n with
  | zero => rfl
  | succ k ih =>
      simp only [List.replicate_succ, presentVals, List.filterMap_cons] at ih ⊢
      simp only [id] at ih ⊢
      exact congrArg (List.cons c) ih

theorem presentVals_eq_nil_of_isAllNa (s : ColSeries) (h : isAllNa s = true) :
    presentVals s = [] := by
  induction s with
  | nil => rfl
  | cons a t ih =>
      simp [isAllNa] at h
      obtain ⟨ha, ht⟩ := h
      cases a with
      | none => simp [presentVals] at ih ⊢; exact ih (by simpa [isAllNa] using ht)
      | some q => simp [Option.isNone] at ha

theorem meanQ_replicate (n : ℕ) (c : ℚ) (hn : n ≠ 0) :
    meanQ (List.replicate n c) = c := by
  have hn' : (n : ℚ) ≠ 0 := by exact_mod_cast hn
  simp [meanQ, List.sum_replicate, nsmul_eq_mul]
  field_simp

theorem sampleVar_replicate (n : ℕ) (c : ℚ) :
    sampleVar (List.replicate n c) = 0 := by
  cases n with
  | zero => simp [sampleVar]
  | succ k =>
      simp [sampleVar, meanQ_replicate (k + 1) c (Nat.succ_ne_zero k),
        List.map_replicate, List.sum_replicate]

theorem sampleVar_nonneg (xs : List ℚ) : 0 ≤ sampleVar xs := by
  cases xs with
  | nil => simp [sampleVar]
  | cons a t =>
      apply div_nonneg
      · apply List.sum_nonneg
        intro x hx
        obtain ⟨y, _, rfl⟩ := List.mem_map.mp hx
        positivity
      · simp [List.length_cons]

theorem keys_nodup_val_unique {k : String} {v w : ColSeries}
    {df : ReturnsFrame} (hnd : (df.map Prod.fst).Nodup)
    (h1 : (k, v) ∈ df) (h2 : (k, w) ∈ df) : v = w := by
  induction df with
  | nil => cases h1
  | cons c tl ih =>
      simp only [List.map_cons, List.nodup_cons] at hnd
      rcases List.mem_cons.mp h1 with hv | hv
      · rcases List.mem_cons.mp h2 with hw | hw
        · rw [← hv] at hw; exact (Prod.mk.injEq _ _ _ _).mp hw.symm |>.2
        · exfalso
          apply hnd.1
          have : c.1 = k := by rw [← hv]
          rw [this]
          exact List.mem_map.mpr ⟨(k, w), hw, rfl⟩
      · rcases List.mem_cons.mp h2 with hw | hw
        · exfalso
          apply hnd.1
          have : c.1 = k := by rw [← hw]
          rw [this]
          exact List.mem_map.mpr ⟨(k, v), hv, rfl⟩
        · exact ih hnd.2 hv hw

theorem lookup_eq_none_of_no_key (df : ReturnsFrame) (ms : String)
    (h : ∀ c ∈ df, c.1 ≠ ms) : df.lookup ms = none := by
  induction df with
  | nil => rfl
  | cons c tl ih =>
      have hc : c.1 ≠ ms := h c (List.mem_cons_self c tl)
      simp only [List.lookup]
      have hbe : (ms == c.1) = false := by
        simp only [beq_eq_false_iff_ne]
        exact fun hh => hc hh.symm
      rw [hbe]
      exact ih (fun d hd => h d (List.mem_cons_of_mem c hd))

/- ------------------------------------------------------------------
   Claim theorems
   ------------------------------------------------------------------ -/

/-- C9: when loading fails (missing file or malformed CSV, modelled by the
error outcome of the try block), `load_holdings` and `load_history` report
the error message and return without raising, leaving the analyzer state
exactly as it was; in particular, on a fresh analyzer the holdings/history
state remains unset. -/
theorem load_error_leaves_state_unset :
    ∀ (st : PortfolioRiskAnalyzer) (fp e : String),
      (load_holdings st fp (.error e)).1 = st ∧
      (load_holdings st fp (.error e)).2 =
        ["Error loading holdings file: " ++ e] ∧
      (load_history st fp (.error e)).1 = st ∧
      (load_history st fp (.error e)).2 =
        ["Error loading history file: " ++ e] ∧
      (load_holdings initAnalyzer fp (.error e)).1.holdings_df = none ∧
      (load_history initAnalyzer fp (.error e)).1.history_df = none :=
  fun _ _ _ => ⟨rfl, rfl, rfl, rfl, rfl, rfl⟩

/-- C10: `_calculate_annual_cost` returns 0 (no error, no exception) for
the sentinel string and for any string the float parser rejects; an empty
provider mapping yields the sentinel and hence cost 0; and
`analyze_single_fund` reports an annual cost of exactly 0 for a fund whose
expense ratio is the sentinel. -/
theorem annual_cost_na_is_zero :
    ∀ (pyFloat : String → Option ℚ) (amount : ℚ),
      _calculate_annual_cost pyFloat amount (.strv "N/A") = 0 ∧
      (∀ s : String, pyFloat s = none →
        _calculate_annual_cost pyFloat amount (.strv s) = 0) ∧
      _calculate_annual_cost pyFloat amount (get_fund_info_expense_ratio []) = 0 ∧
      (∀ (ticker : String) (fi : FundInfo), fi.expense_ratio = .strv "N/A" →
        (analyze_single_fund pyFloat ticker (some fi)).toOption.map
          (fun a => a.annual_cost_per_10k) = some 0) := by
  intro pyFloat amount
  have hna : _calculate_annual_cost pyFloat amount (.strv "N/A") = 0 := by
    simp [_calculate_annual_cost]
  refine ⟨hna, ?_, ?_, ?_⟩
  · intro s hs
    by_cases h : s = "N/A"
    · subst h; exact hna
    · simp [_calculate_annual_cost, h, hs]
  · have : get_fund_info_expense_ratio [] = .strv "N/A" := by
      simp [get_fund_info_expense_ratio, expense_ratio_fields]
    rw [this]; exact hna
  · intro ticker fi hfi
    simp [analyze_single_fund, Except.toOption, hfi, _calculate_annual_cost]

/-- C10 witness: the theorem applied at a parser that rejects everything,
the unparsable string abc, and a concrete fund record carrying the
sentinel. -/
theorem annual_cost_na_is_zero_witness :
    _calculate_annual_cost (fun _ => none) 10000 (.strv "N/A") = 0 ∧
    _calculate_annual_cost (fun _ => none) 10000 (.strv "abc") = 0 ∧
    (analyze_single_fund (fun _ => none) "VTI"
      (some ⟨"VTI", "Vanguard Total Stock Market ETF", .strv "N/A",
        "Large Blend", "Vanguard"⟩)).toOption.map
      (fun a => a.annual_cost_per_10k) = some 0 :=
  ⟨(annual_cost_na_is_zero (fun _ => none) 10000).1,
   (annual_cost_na_is_zero (fun _ => none) 10000).2.1 "abc" rfl,
   (annual_cost_na_is_zero (fun _ => none) 10000).2.2.2 "VTI" _ rfl⟩

/-- C2 counterexample: the claim says a value whose magnitude lies in the
open-closed interval (0.01, 100] is divided by 100 and any value outside
that interval is stored unchanged. The code divides at exactly 0.01
(0.01 is outside the open interval, so the claim says unchanged), and it
leaves -0.5 unchanged (magnitude 0.5 is inside the interval, so the claim
says divided). -/
theorem expense_ratio_interval_counterexample :
    normalizeExpenseRatio (1 / 100) = 1 / 10000 ∧
    ¬ ((1 / 10000 : ℚ) = 1 / 100) ∧
    normalizeExpenseRatio (-(1 / 2)) = -(1 / 2) ∧
    ¬ ((-(1 / 2) : ℚ) = -(1 / 2) / 100) := by
  refine ⟨?_, by norm_num, ?_, by norm_num⟩
  · norm_num [normalizeExpenseRatio]
  · norm_num [normalizeExpenseRatio]

/-- C2 amended: a fetched expense-ratio value x (the signed value, not its
magnitude) is divided by 100 exactly when it lies in the closed interval
[0.01, 100]; every other value is stored unchanged. In particular 0.03 is
stored as 0.0003 and 0.0003 is stored unchanged, with the boundary 0.01
itself divided. -/
theorem expense_ratio_normalization_amended :
    (∀ x : ℚ, normalizeExpenseRatio x =
      if 1 / 100 ≤ x ∧ x ≤ 100 then x / 100 else x) ∧
    get_fund_info_expense_ratio [("expenseRatio", 3 / 100)] =
      .num (3 / 10000) ∧
    get_fund_info_expense_ratio [("expenseRatio", 3 / 10000)] =
      .num (3 / 10000) := by
  refine ⟨?_, ?_, ?_⟩
  · intro x
    simp only [normalizeExpenseRatio]
    split_ifs with h1 h2 h3 h4 h5 <;> try rfl
    · exact absurd ⟨h1.1, by linarith [h1.2]⟩ h2
    · exact absurd ⟨by linarith [h3.1], h3.2⟩ h4
    · rcases not_and_or.mp h1 with ha | ha
      · exact absurd h5.1 ha
      · push_neg at ha
        exact absurd ⟨ha, h5.2⟩ h3
  · have : normalizeExpenseRatio (3 / 100) = 3 / 10000 := by
      norm_num [normalizeExpenseRatio]
    simp [get_fund_info_expense_ratio, expense_ratio_fields, List.lookup, this]
  · have : normalizeExpenseRatio (3 / 10000) = 3 / 10000 := by
      norm_num [normalizeExpenseRatio]
    simp [get_fund_info_expense_ratio, expense_ratio_fields, List.lookup, this]

/-- C1: the claim says the beta of an asset whose return series is
element-wise identical to the benchmark equals exactly 1.0. The code
divides the numpy sample covariance (divisor N-1) by the numpy population
variance (divisor N), so an identical two-observation series gets beta
N/(N-1) = 2, not 1. The benchmark itself is excluded from the output, as
the claim states. -/
theorem beta_of_identical_asset_is_two :
    calculate_beta
      (some [("AAA", [some (1 / 10), some (-(1 / 10))]),
             ("SPY", [some (1 / 10), some (-(1 / 10))])])
      default_market_symbol
      = some [("AAA", some 2)] ∧ ¬ ((2 : ℚ) = 1) := by
  constructor
  · have hp : presentVals [some (1 / 10 : ℚ), some (-(1 / 10))] =
        [1 / 10, -(1 / 10)] := by
      simp [presentVals]
    have hb : betaVal [some (1 / 10), some (-(1 / 10))]
        [some (1 / 10), some (-(1 / 10))] = some 2 := by
      simp only [betaVal, hp]
      rw [if_pos (by decide)]
      norm_num [npCov, npVar, meanQ]
    show some [("AAA", betaVal [some (1 / 10), some (-(1 / 10))]
      [some (1 / 10), some (-(1 / 10))])] = some [("AAA", some 2)]
    rw [hb]
  · norm_num

/-- C3: `calculate_asset_returns` yields None when no history is loaded;
for a loaded history, each non-Date price column produces the return
column `pct_change` of the prices; that column has one fewer observation
than the source and its entry t equals price[t+1]/price[t] - 1. -/
theorem asset_returns_spec :
    calculate_asset_returns none = none ∧
    (∀ (df : PriceFrame) (name : String) (prices : List ℚ),
      (name, prices) ∈ df → name ≠ "Date" →
      (name, (pct_change prices).map some) ∈
        (calculate_asset_returns (some df)).getD []) ∧
    (∀ prices : List ℚ, (pct_change prices).length = prices.length - 1) ∧
    (∀ (prices : List ℚ) (t : ℕ), t + 1 < prices.length →
      0 < prices.getD t 0 →
      (pct_change prices).getD t 0 =
        prices.getD (t + 1) 0 / prices.getD t 0 - 1) := by
  refine ⟨rfl, ?_, ?_, ?_⟩
  · intro df name prices hmem hname
    simp only [calculate_asset_returns, Option.map_some, Option.getD_some]
    exact List.mem_map_of_mem _
      (List.mem_filter.mpr ⟨hmem, by simpa using hname⟩)
  · intro prices
    simp only [pct_change, List.length_map, List.length_zip,
      List.length_tail]
    exact Nat.min_eq_right (Nat.sub_le _ _)
  · intro prices t ht hpos
    have hlen : (prices.zip prices.tail).length = prices.length - 1 := by
      simp only [List.length_zip, List.length_tail]
      exact Nat.min_eq_right (Nat.sub_le _ _)
    have ht2 : t < (pct_change prices).length := by
      simp only [pct_change, List.length_map, hlen]
      omega
    have htz : t < (prices.zip prices.tail).length := by
      simpa only [pct_change, List.length_map] using ht2
    have ht3 : t < prices.length := by omega
    have ht4 : t < prices.tail.length := by
      simp only [List.length_tail]; omega
    rw [List.getD_eq_getElem _ _ ht2, List.getD_eq_getElem _ _ ht3,
      List.getD_eq_getElem _ _ (by omega : t + 1 < prices.length)]
    simp only [pct_change, List.getElem_map, List.getElem_zip,
      List.getElem_tail]

/-- C3 witness: the theorem applied to a concrete two-column history with
known prices; the hand-computed return 121/110 - 1 appears at index 1. -/
theorem asset_returns_spec_witness :
    ("A", (pct_change [100, 110, 121]).map some) ∈
      (calculate_asset_returns
        (some [("Date", [1, 2, 3]), ("A", [100, 110, 121])])).getD [] ∧
    (pct_change [(100 : ℚ), 110, 121]).length =
      [(100 : ℚ), 110, 121].length - 1 ∧
    (pct_change [(100 : ℚ), 110, 121]).getD 1 0 =
      [(100 : ℚ), 110, 121].getD 2 0 / [(100 : ℚ), 110, 121].getD 1 0 - 1 :=
  ⟨asset_returns_spec.2.1 _ "A" _ (by simp) (by decide),
   asset_returns_spec.2.2.1 _,
   asset_returns_spec.2.2.2 [(100 : ℚ), 110, 121] 1 (by norm_num)
     (by norm_num)⟩

/-- C8: `calculate_value_at_risk` maps each asset whose return series is
not entirely undefined to the empirical (linearly interpolated) quantile
of its present returns at the given confidence level; the default
confidence level is 5%; and on the uniform synthetic return series the
5% quantile is the known value -0.09. -/
theorem value_at_risk_spec :
    default_confidence_level = 5 / 100 ∧
    (∀ (df : ReturnsFrame) (name : String) (s : ColSeries) (cl : ℚ),
      (name, s) ∈ df → isAllNa s = false →
      (name, quantileLinear (presentVals s) cl) ∈
        (calculate_value_at_risk (some df) cl).getD []) ∧
    quantileLinear uniform_returns default_confidence_level = -(9 / 100) := by
  refine ⟨by norm_num [default_confidence_level], ?_, ?_⟩
  · intro df name s cl hmem hna
    simp only [calculate_value_at_risk, Option.map_some, Option.getD_some]
    apply List.mem_filterMap.mpr
    exact ⟨(name, s), hmem, by simp [hna]⟩
  · norm_num [uniform_returns, default_confidence_level, quantileLinear,
      List.insertionSort, List.orderedInsert]

/-- C8 witness: the theorem applied to a one-asset frame carrying the
uniform synthetic series. -/
theorem value_at_risk_spec_witness :
    ("A", quantileLinear (presentVals (uniform_returns.map some)) (5 / 100)) ∈
      (calculate_value_at_risk
        (some [("A", uniform_returns.map some)]) (5 / 100)).getD [] :=
  value_at_risk_spec.2.1 _ "A" _ (5 / 100) (by simp)
    (by simp [isAllNa, uniform_returns])

theorem zip_replicate_left {α : Type} (a : α) :
    ∀ n : ℕ, (List.replicate (n + 1) a).zip (List.replicate n a) =
      List.replicate n (a, a) := by
  intro n
  induction n with
  | zero => rfl
  | succ k ih =>
      simp only [List.replicate_succ, List.zip_cons_cons] at ih ⊢
      rw [ih]

theorem pct_change_replicate (n : ℕ) (p : ℚ) (hp : p ≠ 0) :
    pct_change (List.replicate n p) = List.replicate (n - 1) 0 := by
  cases n with
  | zero => rfl
  | succ k =>
      have htail : (List.replicate (k + 1) p).tail = List.replicate k p := by
        simp [List.replicate_succ]
      simp only [pct_change, htail, zip_replicate_left, List.map_replicate,
        Nat.add_sub_cancel]
      rw [div_self hp, sub_self]

theorem classify_low_iff (v : ℝ) :
    _classify_risk_level v = "Low" ↔ v < 0.15 := by
  unfold _classify_risk_level
  split_ifs with h1 h2 h3
  · exact iff_of_true rfl h1
  · exact iff_of_false (by decide) h1
  · exact iff_of_false (by decide) h1
  · exact iff_of_false (by decide) h1

theorem classify_medium_iff (v : ℝ) :
    _classify_risk_level v = "Medium" ↔ 0.15 ≤ v ∧ v < 0.25 := by
  unfold _classify_risk_level
  split_ifs with h1 h2 h3
  · exact iff_of_false (by decide) (fun hc => absurd h1 (not_lt.mpr hc.1))
  · exact iff_of_true rfl ⟨not_lt.mp h1, h2⟩
  · exact iff_of_false (by decide) (fun hc => h2 hc.2)
  · exact iff_of_false (by decide) (fun hc => h2 hc.2)

theorem classify_high_iff (v : ℝ) :
    _classify_risk_level v = "High" ↔ 0.25 ≤ v ∧ v < 0.40 := by
  unfold _classify_risk_level
  split_ifs with h1 h2 h3
  · exact iff_of_false (by decide) (fun hc => by linarith [hc.1])
  · exact iff_of_false (by decide) (fun hc => by linarith [hc.1])
  · exact iff_of_true rfl ⟨not_lt.mp h2, h3⟩
  · exact iff_of_false (by decide) (fun hc => h3 hc.2)

theorem classify_very_high_iff (v : ℝ) :
    _classify_risk_level v = "Very High" ↔ 0.40 ≤ v := by
  unfold _classify_risk_level
  split_ifs with h1 h2 h3
  · exact iff_of_false (by decide) (fun hc => by linarith)
  · exact iff_of_false (by decide) (fun hc => by linarith)
  · exact iff_of_false (by decide) (fun hc => by linarith)
  · exact iff_of_true rfl (not_lt.mp h3)

/-- C6: every asset appears in the volatility output; with at least two
present observations its value is the sample standard deviation of the
return series times the square root of 252; the classification bands are
below 0.15 Low, below 0.25 Medium, below 0.40 High, else Very High; a
constant price series yields an all-zero return series, annualized
volatility exactly 0, and classification Low. -/
theorem volatility_spec :
    (∀ (df : ReturnsFrame) (name : String) (s : ColSeries),
      (name, s) ∈ df →
      (name, (pdStd s).map (· * Real.sqrt 252)) ∈
        (calculate_volatility (some df)).getD []) ∧
    (∀ s : ColSeries, 2 ≤ (presentVals s).length →
      (pdStd s).map (· * Real.sqrt 252) =
        some (sampleStd (presentVals s) * Real.sqrt 252)) ∧
    (∀ v : ℝ,
      (_classify_risk_level v = "Low" ↔ v < 0.15) ∧
      (_classify_risk_level v = "Medium" ↔ 0.15 ≤ v ∧ v < 0.25) ∧
      (_classify_risk_level v = "High" ↔ 0.25 ≤ v ∧ v < 0.40) ∧
      (_classify_risk_level v = "Very High" ↔ 0.40 ≤ v)) ∧
    (∀ (n : ℕ) (p : ℚ), p ≠ 0 →
      pct_change (List.replicate n p) = List.replicate (n - 1) 0) ∧
    (∀ n : ℕ, 2 ≤ n →
      (pdStd (List.replicate n (some (0 : ℚ)))).map (· * Real.sqrt 252) =
        some 0) ∧
    _classify_risk_level 0 = "Low" := by
  refine ⟨?_, ?_, ?_, pct_change_replicate, ?_, ?_⟩
  · intro df name s hmem
    simp only [calculate_volatility, Option.map_some, Option.getD_some]
    exact List.mem_map_of_mem _ hmem
  · intro s h
    simp only [pdStd, if_pos h, sampleStd]
    rfl
  · intro v
    exact ⟨classify_low_iff v, classify_medium_iff v, classify_high_iff v,
      classify_very_high_iff v⟩
  · intro n hn
    have hp := presentVals_replicate_some n 0
    simp only [pdStd, hp, List.length_replicate, if_pos hn,
      sampleVar_replicate, Option.map_some, Option.some.injEq]
    norm_num
  · exact (classify_low_iff 0).mpr (by norm_num)

/-- C6 witness: the theorem applied to a one-asset frame with a constant
(zero-variance) return series, a constant price series of length 3, and
the classification at the computed volatility 0. -/
theorem volatility_spec_witness :
    (("A", (pdStd [some (0 : ℚ), some 0]).map (· * Real.sqrt 252)) ∈
      (calculate_volatility (some [("A", [some 0, some 0])])).getD []) ∧
    ((pdStd [some (0 : ℚ), some 0]).map (· * Real.sqrt 252) =
      some (sampleStd (presentVals [some (0 : ℚ), some 0]) * Real.sqrt 252)) ∧
    pct_change (List.replicate 3 (100 : ℚ)) = List.replicate (3 - 1) 0 ∧
    (pdStd (List.replicate 2 (some (0 : ℚ)))).map (· * Real.sqrt 252) =
      some 0 ∧
    _classify_risk_level 0 = "Low" :=
  ⟨volatility_spec.1 _ "A" _ (by simp),
   volatility_spec.2.1 _ (by decide),
   volatility_spec.2.2.2.1 3 100 (by norm_num),
   volatility_spec.2.2.2.2.1 2 (by norm_num),
   volatility_spec.2.2.2.2.2⟩

/-- C4: each asset whose return series is not entirely undefined gets a
Sharpe value; when the standard deviation of the series is zero the value
is not-a-number (none, no exception); when it is a nonzero sd the value is
mean(daily returns - risk_free_rate/252) divided by sd; the default
risk-free rate is 2%. -/
theorem sharpe_ratio_spec :
    (∀ (df : ReturnsFrame) (name : String) (s : ColSeries) (rfr : ℚ),
      (name, s) ∈ df → isAllNa s = false →
      (name, sharpeVal rfr s) ∈
        (calculate_sharpe_ratio (some df) rfr).getD []) ∧
    (∀ (rfr : ℚ) (s : ColSeries), pdStd s = some 0 →
      sharpeVal rfr s = none) ∧
    (∀ (rfr : ℚ) (s : ColSeries) (sd : ℝ), pdStd s = some sd → sd ≠ 0 →
      sharpeVal rfr s = some
        (((meanQ ((presentVals s).map (fun r => r - rfr / 252)) : ℚ) : ℝ) /
          sd)) ∧
    default_risk_free_rate = 2 / 100 := by
  refine ⟨?_, ?_, ?_, by norm_num [default_risk_free_rate]⟩
  · intro df name s rfr hmem hna
    simp only [calculate_sharpe_ratio, Option.map_some, Option.getD_some]
    exact List.mem_filterMap.mpr ⟨(name, s), hmem, by simp [hna]⟩
  · intro rfr s h
    simp only [sharpeVal, h]
    simp
  · intro rfr s sd h hsd
    simp only [sharpeVal, h]
    rw [if_neg hsd]

/-- C4 witness: the theorem applied to a constant series (zero standard
deviation, NaN result) and to a three-observation series whose sample
standard deviation is exactly 1/10. -/
theorem sharpe_ratio_spec_witness :
    sharpeVal (2 / 100) [some (1 : ℚ), some 1] = none ∧
    sharpeVal (2 / 100) [some (-(1 / 10) : ℚ), some 0, some (1 / 10)] =
      some (((meanQ ((presentVals [some (-(1 / 10) : ℚ), some 0,
        some (1 / 10)]).map (fun r => r - 2 / 100 / 252)) : ℚ) : ℝ) /
        ((1 : ℝ) / 10)) ∧
    ("A", sharpeVal (2 / 100) [some (1 : ℚ), some 1]) ∈
      (calculate_sharpe_ratio (some [("A", [some 1, some 1])])
        (2 / 100)).getD [] := by
  have hp0 : presentVals [some (1 : ℚ), some 1] = [1, 1] := by
    simp [presentVals]
  have h0 : pdStd [some (1 : ℚ), some 1] = some 0 := by
    simp only [pdStd, hp0]
    rw [if_pos (by norm_num)]
    have : sampleVar [(1 : ℚ), 1] = 0 := by norm_num [sampleVar, meanQ]
    rw [this]
    simp
  have hp1 : presentVals [some (-(1 / 10) : ℚ), some 0, some (1 / 10)] =
      [-(1 / 10), 0, 1 / 10] := by
    simp [presentVals]
  have hv : sampleVar [-(1 / 10), 0, (1 / 10 : ℚ)] = 1 / 100 := by
    norm_num [sampleVar, meanQ]
  have h1 : pdStd [some (-(1 / 10) : ℚ), some 0, some (1 / 10)] =
      some ((1 : ℝ) / 10) := by
    simp only [pdStd, hp1]
    rw [if_pos (by norm_num), hv]
    have hc : ((1 / 100 : ℚ) : ℝ) = (1 / 10 : ℝ) ^ 2 := by norm_num
    rw [hc, Real.sqrt_sq (by norm_num)]
  exact ⟨sharpe_ratio_spec.2.1 (2 / 100) _ h0,
         sharpe_ratio_spec.2.2.1 (2 / 100) _ ((1 : ℝ) / 10) h1 (by norm_num),
         sharpe_ratio_spec.1 _ "A" _ (2 / 100) (by simp) (by decide)⟩

theorem scanl_eq_cons_tail (f : ℚ → ℚ → ℚ) (b : ℚ) (l : List ℚ) :
    l.scanl f b = b :: (l.scanl f b).tail := by
  cases l <;> simp [List.scanl_nil, List.scanl_cons]

theorem scanl_mul_one_replicate (m : ℕ) (a : ℚ) :
    (List.replicate m (1 : ℚ)).scanl (· * ·) a = List.replicate (m + 1) a := by
  induction m generalizing a with
  | zero => rfl
  | succ k ih =>
      rw [List.replicate_succ, List.scanl_cons, mul_one, ih]
      rfl

theorem scanl_max_replicate (m : ℕ) (a b : ℚ) (h : b ≤ a) :
    (List.replicate m b).scanl max a = List.replicate (m + 1) a := by
  induction m with
  | zero => rfl
  | succ k ih =>
      rw [List.replicate_succ, List.scanl_cons, max_eq_left h, ih]
      rfl

theorem min?_replicate (n : ℕ) (c : ℚ) :
    (List.replicate (n + 1) c).min? = some c := by
  induction n with
  | zero => rfl
  | succ k ih =>
      rw [List.replicate_succ, List.min?_cons, ih]
      simp

theorem max?_cons_cons (a b : ℚ) (l : List ℚ) :
    (a :: b :: l).max? = (max a b :: l).max? := by
  cases hl : l.max? with
  | none => simp [List.max?_cons, hl]
  | some x => simp [List.max?_cons, hl, max_assoc]

theorem zip_replicate_replicate {α β : Type} (a : α) (b : β) (n : ℕ) :
    (List.replicate n a).zip (List.replicate n b) = List.replicate n (a, b) := by
  induction n with
  | zero => rfl
  | succ k ih => simp [List.replicate_succ, List.zip_cons_cons, ih]

theorem zip_self_eq_map {α : Type} (l : List α) :
    l.zip l = l.map (fun x => (x, x)) := by
  induction l with
  | nil => rfl
  | cons a t ih => simp [List.zip_cons_cons, ih]

theorem scanl_max_chain_eq (t : List ℚ) :
    ∀ h : ℚ, List.Chain (· ≤ ·) h t → t.scanl max h = h :: t := by
  induction t with
  | nil => intro h _; rfl
  | cons a t2 ih =>
      intro h hc
      rcases List.chain_cons.mp hc with ⟨hha, hc2⟩
      rw [List.scanl_cons, max_eq_right hha, ih a hc2]
      rfl

theorem scanl_mul_pos_chain (gs : List ℚ) :
    ∀ a : ℚ, 0 < a → (∀ g ∈ gs, 1 ≤ g) →
      (∀ x ∈ gs.scanl (· * ·) a, 0 < x) ∧
        List.Chain (· ≤ ·) a ((gs.scanl (· * ·) a).tail) := by
  induction gs with
  | nil =>
      intro a ha _
      refine ⟨?_, ?_⟩
      · intro x hx
        rw [List.scanl_nil, List.mem_singleton] at hx
        exact hx ▸ ha
      · rw [List.scanl_nil]
        exact List.Chain.nil
  | cons g gs ih =>
      intro a ha hg
      have hg1 : 1 ≤ g := hg g (List.mem_cons_self g gs)
      have hag : 0 < a * g := mul_pos ha (lt_of_lt_of_le one_pos hg1)
      refine ⟨?_, ?_⟩
      · intro x hx
        rw [List.scanl_cons] at hx
        rcases List.mem_cons.mp (by simpa using hx) with hx0 | hx1
        · exact hx0 ▸ ha
        · exact (ih (a * g) hag (fun d hd => hg d (List.mem_cons_of_mem g hd))).1 x hx1
      · rw [List.scanl_cons]
        simp only [List.singleton_append, List.tail_cons]
        rw [scanl_eq_cons_tail]
        exact List.chain_cons.mpr
          ⟨le_mul_of_one_le_right ha.le hg1,
           (ih (a * g) hag (fun d hd => hg d (List.mem_cons_of_mem g hd))).2⟩

theorem cumulativeReturns_length (rs : List ℚ) :
    (cumulativeReturns rs).length = rs.length := by
  simp [cumulativeReturns, List.length_tail, List.length_scanl]

theorem runningMax_length (xs : List ℚ) :
    (runningMax xs).length = xs.length := by
  cases xs <;> simp [runningMax, List.length_scanl]

theorem scanl_mul_tail_getD (gs : List ℚ) :
    ∀ (a : ℚ) (t : ℕ), t < gs.length →
      ((gs.scanl (· * ·) a).tail).getD t 0 = a * (gs.take (t + 1)).prod := by
  induction gs with
  | nil => intro a t ht; cases ht
  | cons g gs ih =>
      intro a t ht
      rw [List.scanl_cons]
      simp only [List.singleton_append, List.tail_cons]
      cases t with
      | zero =>
          rw [scanl_eq_cons_tail, List.getD_cons_zero, List.take_succ_cons,
            List.take_zero, List.prod_cons, List.prod_nil, mul_one]
      | succ k =>
          rw [scanl_eq_cons_tail, List.getD_cons_succ,
            ih (a * g) k (Nat.lt_of_succ_lt_succ ht), List.take_succ_cons,
            List.prod_cons, mul_assoc]

theorem cumulativeReturns_getD (rs : List ℚ) (t : ℕ) (ht : t < rs.length) :
    (cumulativeReturns rs).getD t 0 =
      ((rs.take (t + 1)).map (fun r => 1 + r)).prod := by
  have h := scanl_mul_tail_getD (rs.map (fun r => 1 + r)) 1 t
    (by simpa using ht)
  simp only [cumulativeReturns, h, one_mul, List.map_take]

theorem scanl_max_getD (tl : List ℚ) :
    ∀ (a : ℚ) (t : ℕ), t < tl.length + 1 →
      some ((tl.scanl max a).getD t 0) = ((a :: tl).take (t + 1)).max? := by
  induction tl with
  | nil =>
      intro a t ht
      simp only [List.length_nil] at ht
      have : t = 0 := by omega
      subst this
      simp [List.scanl_nil, List.max?_cons]
  | cons b tl ih =>
      intro a t ht
      rw [List.scanl_cons]
      simp only [List.singleton_append]
      cases t with
      | zero => simp [List.max?_cons]
      | succ k =>
          rw [List.getD_cons_succ, ih (max a b) k (by
            simpa using Nat.lt_of_succ_lt_succ ht)]
          simp only [List.take_succ_cons]
          rw [max?_cons_cons]

theorem runningMax_getD (xs : List ℚ) (t : ℕ) (ht : t < xs.length) :
    some ((runningMax xs).getD t 0) = (xs.take (t + 1)).max? := by
  cases xs with
  | nil => cases ht
  | cons h tlx =>
      have := scanl_max_getD tlx h t (by simpa using ht)
      simpa [runningMax] using this

theorem drawdownSeries_getD (rs : List ℚ) (t : ℕ) (ht : t < rs.length) :
    (drawdownSeries rs).getD t 0 =
      ((cumulativeReturns rs).getD t 0 -
        (runningMax (cumulativeReturns rs)).getD t 0) /
        (runningMax (cumulativeReturns rs)).getD t 0 := by
  have hcl : (cumulativeReturns rs).length = rs.length :=
    cumulativeReturns_length rs
  have hrl : (runningMax (cumulativeReturns rs)).length = rs.length := by
    rw [runningMax_length, hcl]
  have hzl : ((cumulativeReturns rs).zip
      (runningMax (cumulativeReturns rs))).length = rs.length := by
    simp [List.length_zip, hcl, hrl]
  have ht1 : t < (drawdownSeries rs).length := by
    simpa [drawdownSeries, List.length_map, hzl] using ht
  have htz : t < ((cumulativeReturns rs).zip
      (runningMax (cumulativeReturns rs))).length := by
    rw [hzl]; exact ht
  rw [List.getD_eq_getElem _ _ ht1,
    List.getD_eq_getElem _ _ (show t < (cumulativeReturns rs).length from
      hcl ▸ ht),
    List.getD_eq_getElem _ _ (show t <
      (runningMax (cumulativeReturns rs)).length from hrl ▸ ht)]
  simp only [drawdownSeries, List.getElem_map, List.getElem_zip]

theorem runningMax_replicate (m : ℕ) (c : ℚ) :
    runningMax (List.replicate (m + 1) c) = List.replicate (m + 1) c := by
  rw [List.replicate_succ]
  show (List.replicate m c).scanl max c = c :: List.replicate m c
  rw [scanl_max_replicate m c c le_rfl]
  rfl

theorem maxDrawdown_monotone (rs : List ℚ) (hne : rs ≠ [])
    (hpos : ∀ r ∈ rs, 0 < r) : maxDrawdownVal rs = some 0 := by
  have hg : ∀ g ∈ rs.map (fun r => 1 + r), 1 ≤ g := by
    intro g hgm
    obtain ⟨r, hr, rfl⟩ := List.mem_map.mp hgm
    linarith [hpos r hr]
  have hchain : List.Chain (· ≤ ·) 1 (cumulativeReturns rs) :=
    (scanl_mul_pos_chain (rs.map (fun r => 1 + r)) 1 one_pos hg).2
  have hlen : (cumulativeReturns rs).length = rs.length :=
    cumulativeReturns_length rs
  cases hT : cumulativeReturns rs with
  | nil =>
      exfalso
      apply hne
      apply List.length_eq_zero.mp
      rw [← hlen, hT]
      rfl
  | cons h t =>
      rw [hT] at hchain
      rcases List.chain_cons.mp hchain with ⟨_, hch2⟩
      have hrm : runningMax (h :: t) = h :: t := by
        show t.scanl max h = h :: t
        exact scanl_max_chain_eq t h hch2
      have hdd : drawdownSeries rs = List.replicate (t.length + 1) 0 := by
        unfold drawdownSeries
        rw [hT, hrm, zip_self_eq_map, List.map_map]
        have hfz : ((fun p : ℚ × ℚ => (p.1 - p.2) / p.2) ∘ fun x => (x, x)) =
            fun _ : ℚ => (0 : ℚ) := by
          funext x
          simp
        rw [hfz, List.map_const']
        simp [List.length_cons]
      show (drawdownSeries rs).min? = some 0
      rw [hdd, min?_replicate]

theorem cumulativeReturns_drop_replicate (r : ℚ) (m : ℕ) :
    cumulativeReturns (r :: List.replicate m 0) =
      List.replicate (m + 1) (1 + r) := by
  unfold cumulativeReturns
  simp only [List.map_cons, List.map_replicate]
  have e1 : (1 : ℚ) + 0 = 1 := by norm_num
  rw [e1, List.scanl_cons, one_mul, scanl_mul_one_replicate]
  rfl

theorem maxDrawdown_first_drop (m : ℕ) :
    maxDrawdownVal (-(1 / 2) :: List.replicate m 0) = some 0 := by
  have hc := cumulativeReturns_drop_replicate (-(1 / 2)) m
  have hval : (1 : ℚ) + -(1 / 2) = 1 / 2 := by norm_num
  rw [hval] at hc
  show (drawdownSeries _).min? = some 0
  unfold drawdownSeries
  rw [hc, runningMax_replicate, zip_replicate_replicate, List.map_replicate]
  have hfz : ((1 : ℚ) / 2 - 1 / 2) / (1 / 2) = 0 := by norm_num
  simp only [hfz]
  exact min?_replicate m 0

theorem maxDrawdown_delayed_drop (m : ℕ) :
    maxDrawdownVal (0 :: -(1 / 2) :: List.replicate m 0) = some (-(1 / 2)) := by
  have hcum : cumulativeReturns (0 :: -(1 / 2) :: List.replicate m 0) =
      1 :: List.replicate (m + 1) (1 / 2) := by
    unfold cumulativeReturns
    simp only [List.map_cons, List.map_replicate]
    have e1 : (1 : ℚ) + 0 = 1 := by norm_num
    have e2 : (1 : ℚ) + -(1 / 2) = 1 / 2 := by norm_num
    rw [e1, e2, List.scanl_cons, one_mul, List.scanl_cons, one_mul,
      scanl_mul_one_replicate]
    rfl
  show (drawdownSeries _).min? = some (-(1 / 2))
  unfold drawdownSeries
  rw [hcum]
  have hrm : runningMax (1 :: List.replicate (m + 1) ((1 : ℚ) / 2)) =
      List.replicate (m + 2) 1 := by
    show (List.replicate (m + 1) ((1 : ℚ) / 2)).scanl max 1 =
      List.replicate (m + 2) 1
    exact scanl_max_replicate (m + 1) 1 (1 / 2) (by norm_num)
  rw [hrm, show List.replicate (m + 2) (1 : ℚ) =
    1 :: List.replicate (m + 1) 1 from List.replicate_succ 1 (m + 1),
    List.zip_cons_cons, zip_replicate_replicate, List.map_cons,
    List.map_replicate]
  have hf1 : ((1 : ℚ) - 1) / 1 = 0 := by norm_num
  have hf2 : ((1 : ℚ) / 2 - 1) / 1 = -(1 / 2) := by norm_num
  simp only [hf1, hf2]
  rw [List.min?_cons, min?_replicate]
  simp only [Option.elim_some]
  rw [min_eq_right (by norm_num : (-(1 / 2) : ℚ) ≤ 0)]

/-- C5 counterexample: the claim says max drawdown is -0.5 for a single
50% drop followed by flat prices. For the price series 100, 50, 50, 50
(returns -0.5, 0, 0) the code computes 0, because the cumulative series
starts at 1 + r[0] = 0.5 and the pre-drop level 1 never enters the
running maximum. -/
theorem max_drawdown_first_period_drop_counterexample :
    calculate_max_drawdown
      (some [("A", [some (-(1 / 2)), some 0, some 0])]) =
      some [("A", some 0)] ∧ ¬ ((0 : ℚ) = -(1 / 2)) := by
  constructor
  · show some [("A", maxDrawdownVal
      (presentVals [some (-(1 / 2)), some 0, some 0]))] =
      some [("A", some 0)]
    have hp : presentVals [some (-(1 / 2) : ℚ), some 0, some 0] =
        -(1 / 2) :: List.replicate 2 0 := by
      simp [presentVals, List.replicate]
    rw [hp, maxDrawdown_first_drop 2]
  · norm_num

/-- C5 amended: per asset whose return series is not entirely undefined,
the max drawdown is the minimum of the drawdown series of the present
returns, where the cumulative growth factor at time t is the product of
(1+r) over the first t+1 returns (the series starts at 1+r[0], with no
leading 1), the running maximum at t is the maximum of the cumulative
factors up to t, and the drawdown at t is (cum - runmax)/runmax. For a
monotonically increasing price series (all returns positive) the result
is 0. A single 50% drop preceded by at least one earlier flat return and
followed by flat returns gives -0.5; a 50% drop at the very first return
gives 0 instead, since the pre-drop level is absent from the cumulative
series. -/
theorem max_drawdown_spec_amended :
    (∀ (df : ReturnsFrame) (name : String) (s : ColSeries),
      (name, s) ∈ df → isAllNa s = false →
      (name, maxDrawdownVal (presentVals s)) ∈
        (calculate_max_drawdown (some df)).getD []) ∧
    (∀ rs : List ℚ, maxDrawdownVal rs = (drawdownSeries rs).min?) ∧
    (∀ (rs : List ℚ) (t : ℕ), t < rs.length →
      (cumulativeReturns rs).getD t 0 =
        ((rs.take (t + 1)).map (fun r => 1 + r)).prod) ∧
    (∀ (xs : List ℚ) (t : ℕ), t < xs.length →
      some ((runningMax xs).getD t 0) = (xs.take (t + 1)).max?) ∧
    (∀ (rs : List ℚ) (t : ℕ), t < rs.length →
      (drawdownSeries rs).getD t 0 =
        ((cumulativeReturns rs).getD t 0 -
          (runningMax (cumulativeReturns rs)).getD t 0) /
          (runningMax (cumulativeReturns rs)).getD t 0) ∧
    (∀ rs : List ℚ, rs ≠ [] → (∀ r ∈ rs, 0 < r) →
      maxDrawdownVal rs = some 0) ∧
    (∀ m : ℕ, maxDrawdownVal (0 :: -(1 / 2) :: List.replicate m 0) =
      some (-(1 / 2))) ∧
    (∀ m : ℕ, maxDrawdownVal (-(1 / 2) :: List.replicate m 0) = some 0) := by
  refine ⟨?_, fun rs => rfl, cumulativeReturns_getD, runningMax_getD,
    drawdownSeries_getD, maxDrawdown_monotone, maxDrawdown_delayed_drop,
    maxDrawdown_first_drop⟩
  intro df name s hmem hna
  simp only [calculate_max_drawdown, Option.map_some, Option.getD_some]
  exact List.mem_filterMap.mpr ⟨(name, s), hmem, by simp [hna]⟩

/-- C5 witness: the theorem applied to a concrete rising two-return
series, concrete index/time instances and the concrete drop series with
one flat prior return. -/
theorem max_drawdown_spec_amended_witness :
    (("A", maxDrawdownVal (presentVals [some (1 / 10 : ℚ), some (1 / 10)])) ∈
      (calculate_max_drawdown
        (some [("A", [some (1 / 10), some (1 / 10)])])).getD []) ∧
    (cumulativeReturns [1 / 10, 1 / 10]).getD 1 0 =
      (([(1 / 10 : ℚ), 1 / 10].take (1 + 1)).map (fun r => 1 + r)).prod ∧
    some ((runningMax [1, (1 / 2 : ℚ)]).getD 1 0) =
      ([1, (1 / 2 : ℚ)].take (1 + 1)).max? ∧
    (drawdownSeries [0, -(1 / 2 : ℚ)]).getD 1 0 =
      ((cumulativeReturns [0, -(1 / 2 : ℚ)]).getD 1 0 -
        (runningMax (cumulativeReturns [0, -(1 / 2 : ℚ)])).getD 1 0) /
        (runningMax (cumulativeReturns [0, -(1 / 2 : ℚ)])).getD 1 0 ∧
    maxDrawdownVal [(1 / 10 : ℚ)] = some 0 ∧
    maxDrawdownVal (0 :: -(1 / 2) :: List.replicate 1 0) = some (-(1 / 2)) ∧
    maxDrawdownVal (-(1 / 2) :: List.replicate 1 0) = some 0 :=
  ⟨max_drawdown_spec_amended.1 _ "A" _ (by simp) (by decide),
   max_drawdown_spec_amended.2.2.1 [1 / 10, 1 / 10] 1 (by norm_num),
   max_drawdown_spec_amended.2.2.2.1 [1, (1 / 2 : ℚ)] 1 (by norm_num),
   max_drawdown_spec_amended.2.2.2.2.1 [0, -(1 / 2 : ℚ)] 1 (by norm_num),
   max_drawdown_spec_amended.2.2.2.2.2.1 [(1 / 10 : ℚ)] (by simp)
     (by
       intro r hr
       rw [List.mem_singleton] at hr
       rw [hr]
       norm_num),
   max_drawdown_spec_amended.2.2.2.2.2.2.1 1,
   max_drawdown_spec_amended.2.2.2.2.2.2.2 1⟩

theorem not_mem_keys_of_allNa {β : Type} (df : ReturnsFrame) (name : String)
    (s : ColSeries) (f : String × ColSeries → Option (String × β))
    (hf : ∀ c b, f c = some b → b.1 = c.1 ∧ isAllNa c.2 = false)
    (hnd : (df.map Prod.fst).Nodup) (hmem : (name, s) ∈ df)
    (hna : isAllNa s = true) :
    name ∉ (df.filterMap f).map Prod.fst := by
  intro hcontra
  obtain ⟨b, hb, hfst⟩ := List.mem_map.mp hcontra
  obtain ⟨c, hc, hfc⟩ := List.mem_filterMap.mp hb
  obtain ⟨hb1, hcna⟩ := hf c b hfc
  have hck : c.1 = name := by rw [← hfst, hb1]
  have hc2 : (name, c.2) ∈ df := by
    rw [← hck]
    simpa using hc
  have hval : c.2 = s := keys_nodup_val_unique hnd hc2 hmem
  rw [hval, hna] at hcna
  cases hcna

/-- C7 counterexample: the claim says an asset whose return series is
entirely undefined is absent from every metric output, volatility
included. `calculate_volatility` keeps every column, so the all-NaN
asset A appears in its output. -/
theorem volatility_keeps_all_na_asset_counterexample :
    "A" ∈ ((calculate_volatility
      (some [("A", ([none, none] : ColSeries)),
             ("SPY", [some (1 / 100), some (2 / 100)])])).getD []).map
        Prod.fst := by
  simp [calculate_volatility]

/-- C7 amended: an asset whose return series is entirely undefined is
skipped (absent) from the beta, VaR, Sharpe-ratio and max-drawdown
outputs, and a benchmark absent from the frame makes `calculate_beta`
return None (the computation is skipped entirely, not fatal); but
`calculate_volatility` keeps such an asset in its output, with a
not-a-number value. -/
theorem metric_skip_spec_amended :
    (∀ (df : ReturnsFrame) (name : String) (s : ColSeries) (cl rfr : ℚ)
      (ms : String),
      (df.map Prod.fst).Nodup → (name, s) ∈ df → isAllNa s = true →
      name ∉ ((calculate_value_at_risk (some df) cl).getD []).map Prod.fst ∧
      name ∉ ((calculate_sharpe_ratio (some df) rfr).getD []).map Prod.fst ∧
      name ∉ ((calculate_max_drawdown (some df)).getD []).map Prod.fst ∧
      name ∉ ((calculate_beta (some df) ms).getD []).map Prod.fst ∧
      (name, (none : Option ℝ)) ∈ (calculate_volatility (some df)).getD []) ∧
    (∀ (df : ReturnsFrame) (ms : String), (∀ c ∈ df, c.1 ≠ ms) →
      calculate_beta (some df) ms = none) := by
  constructor
  · intro df name s cl rfr ms hnd hmem hna
    refine ⟨?_, ?_, ?_, ?_, ?_⟩
    · simp only [calculate_value_at_risk, Option.map_some, Option.getD_some]
      apply not_mem_keys_of_allNa df name s _ ?_ hnd hmem hna
      intro c b hfc
      by_cases hia : isAllNa c.2
      · simp [hia] at hfc
      · rw [if_pos hia] at hfc
        injection hfc with hb
        exact ⟨by rw [← hb], by simpa using hia⟩
    · simp only [calculate_sharpe_ratio, Option.map_some, Option.getD_some]
      apply not_mem_keys_of_allNa df name s _ ?_ hnd hmem hna
      intro c b hfc
      by_cases hia : isAllNa c.2
      · simp [hia] at hfc
      · rw [if_pos hia] at hfc
        injection hfc with hb
        exact ⟨by rw [← hb], by simpa using hia⟩
    · simp only [calculate_max_drawdown, Option.map_some, Option.getD_some]
      apply not_mem_keys_of_allNa df name s _ ?_ hnd hmem hna
      intro c b hfc
      by_cases hia : isAllNa c.2
      · simp [hia] at hfc
      · rw [if_pos hia] at hfc
        injection hfc with hb
        exact ⟨by rw [← hb], by simpa using hia⟩
    · cases hlk : df.lookup ms with
      | none => simp [calculate_beta, hlk]
      | some market =>
          simp only [calculate_beta, hlk, Option.getD_some]
          apply not_mem_keys_of_allNa df name s _ ?_ hnd hmem hna
          intro c b hfc
          by_cases hia : (c.1 ≠ ms ∧ ¬ isAllNa c.2)
          · rw [if_pos hia] at hfc
            injection hfc with hb
            exact ⟨by rw [← hb], by simpa using hia.2⟩
          · rw [if_neg hia] at hfc
            cases hfc
    · have hstd : pdStd s = none := by
        simp [pdStd, presentVals_eq_nil_of_isAllNa s hna]
      show (name, (none : Option ℝ)) ∈
        df.map (fun c => (c.1, (pdStd c.2).map (· * Real.sqrt 252)))
      apply List.mem_map.mpr
      exact ⟨(name, s), hmem, by simp [hstd]⟩
  · intro df ms h
    simp [calculate_beta, lookup_eq_none_of_no_key df ms h]

/-- C7 witness: the theorem applied to a frame with an all-undefined
asset A next to a present benchmark, and to a frame lacking the
benchmark column entirely. -/
theorem metric_skip_spec_amended_witness :
    ("A" ∉ ((calculate_value_at_risk
        (some [("A", ([none, none] : ColSeries)),
               ("SPY", [some (3 / 100), some (4 / 100)])])
        (1 / 20)).getD []).map Prod.fst) ∧
    ("A" ∉ ((calculate_sharpe_ratio
        (some [("A", ([none, none] : ColSeries)),
               ("SPY", [some (3 / 100), some (4 / 100)])])
        (1 / 50)).getD []).map Prod.fst) ∧
    ("A" ∉ ((calculate_max_drawdown
        (some [("A", ([none, none] : ColSeries)),
               ("SPY", [some (3 / 100), some (4 / 100)])])).getD []).map
        Prod.fst) ∧
    ("A" ∉ ((calculate_beta
        (some [("A", ([none, none] : ColSeries)),
               ("SPY", [some (3 / 100), some (4 / 100)])])
        "SPY").getD []).map Prod.fst) ∧
    (("A", (none : Option ℝ)) ∈ (calculate_volatility
        (some [("A", ([none, none] : ColSeries)),
               ("SPY", [some (3 / 100), some (4 / 100)])])).getD []) ∧
    calculate_beta
      (some [("B", ([some (1 / 100), some (2 / 100)] : ColSeries))])
      "SPY" = none := by
  have h := metric_skip_spec_amended.1
    [("A", ([none, none] : ColSeries)),
     ("SPY", [some (3 / 100), some (4 / 100)])]
    "A" ([none, none] : ColSeries) (1 / 20) (1 / 50) "SPY"
    (by decide) (by simp) (by decide)
  refine ⟨h.1, h.2.1, h.2.2.1, h.2.2.2.1, h.2.2.2.2, ?_⟩
  apply metric_skip_spec_amended.2 _ "SPY"
  intro c hc
  rw [List.mem_singleton] at hc
  rw [hc]
  decide
